import Mathlib

/-!
Verification development for the netcore DNS resolver (guilhem/netcore).

The Go source is shallowly embedded: the record store, the `HasRR` oracle and
the upstream DNS exchange are modelled as function parameters collected in an
`Env`; wall-clock time is a single `now : Int` (Unix seconds); machine
integers are `Nat`/`Int` with explicit `% 2^w` where Go performs a narrowing
conversion.  Recursion in `answerQuestion` (the CNAME chase) is indexed by
explicit fuel: a `none` result means the fuel bound was hit, and a run that
returns `none` for every fuel corresponds to a non-terminating execution of
the Go code.
-/

namespace Netcore

/-! ### Modelled Go standard-library string helpers -/

/-- Characters treated as whitespace by the model of `strings.TrimSpace`
(ASCII subset; the inputs of interest are plain addresses and `"!"`). -/
def isSpaceGo (c : Char) : Bool :=
  c = ' ' || c = '\t' || c = '\n' || c = '\r' || c = '\x0b' || c = '\x0c'

/-- Model of `strings.TrimSpace`. -/
def trimSpace (s : String) : String :=
  String.mk (((s.data.dropWhile isSpaceGo).reverse.dropWhile isSpaceGo).reverse)

/-- Character-list splitter: chunks between separator characters, Go
`strings.Split` semantics for one-character separators (the accumulator holds
the current chunk reversed). -/
def splitCharList (p : Char → Bool) : List Char → List Char → List String
  | acc, [] => [String.mk acc.reverse]
  | acc, c :: cs =>
    if p c then String.mk acc.reverse :: splitCharList p [] cs
    else splitCharList p (c :: acc) cs

/-- Model of `strings.Split(s, sep)` for a one-character separator. -/
def splitGo (s : String) (p : Char → Bool) : List String :=
  splitCharList p [] s.data

/-- Drop one leading `'.'` from a reversed character list; helper for
`strings.TrimSuffix(s, ".")`. -/
def trimDotR (l : List Char) : List Char :=
  match l with
  | c :: rest => if c = '.' then rest else c :: rest
  | [] => []

/-- Model of `strings.TrimSuffix(s, ".")`: removes at most one trailing dot. -/
def trimSuffixDot (s : String) : String :=
  String.mk ((trimDotR s.data.reverse).reverse)

/-- The expression `strings.TrimSuffix(x, ".") + "."` that every hostname
emitting builder in the source uses. -/
def dotTerminate (s : String) : String :=
  trimSuffixDot s ++ "."

/-- Whether a reversed character list starts with two dots. -/
def twoDotsL (l : List Char) : Bool :=
  match l with
  | c1 :: c2 :: _ => if c1 = '.' ∧ c2 = '.' then true else false
  | _ => false

/-- Whether a string ends with at least two dots. -/
def hasTwoTrailingDots (s : String) : Bool :=
  twoDotsL s.data.reverse

/-- Whether a reversed character list starts with exactly one dot. -/
def endsOneDotL (l : List Char) : Bool :=
  match l with
  | c1 :: rest =>
    if c1 = '.' then
      match rest with
      | c2 :: _ => if c2 = '.' then false else true
      | [] => true
    else false
  | [] => false

/-- Whether a string ends with exactly one trailing dot. -/
def endsWithOneDot (s : String) : Bool :=
  endsOneDotL s.data.reverse

/-! ### Modelled `strconv.Atoi` -/

/-- Accumulating decimal-digit scan; `none` on a non-digit character. -/
def decDigitsLoop : Nat → List Char → Option Nat
  | n, [] => some n
  | n, c :: cs =>
    if '0' ≤ c ∧ c ≤ '9' then decDigitsLoop (n * 10 + (c.toNat - 48)) cs
    else none

/-- All-decimal-digit parse requiring at least one digit. -/
def decDigits (l : List Char) : Option Nat :=
  match l with
  | [] => none
  | _ :: _ => decDigitsLoop 0 l

/-- Largest value of Go's 64-bit `int`. -/
def maxInt64 : Nat := 9223372036854775807

/-- Model of `strconv.Atoi` (returns `none` where Go returns an error:
empty string, stray characters, or 64-bit range overflow). -/
def atoi (s : String) : Option Int :=
  match s.data with
  | '+' :: rest =>
    (decDigits rest).bind (fun n => if n ≤ maxInt64 then some (Int.ofNat n) else none)
  | '-' :: rest =>
    (decDigits rest).bind (fun n => if n ≤ maxInt64 + 1 then some (-(Int.ofNat n)) else none)
  | l => (decDigits l).bind (fun n => if n ≤ maxInt64 then some (Int.ofNat n) else none)

/-- Go conversion `uint16(i)` from a (possibly negative) integer. -/
def uint16ofInt (i : Int) : Nat :=
  (i % (65536 : Int)).toNat

/-- Go conversion `uint32(i)` from a (possibly negative) integer. -/
def uint32ofInt (i : Int) : Nat :=
  (i % (4294967296 : Int)).toNat

/-! ### Modelled `net.ParseIP`

Faithful to the Go standard library of the source's era: scan for the first
`'.'` or `':'`, then run the dotted-quad or the IPv6 grammar over the whole
string; the result is the 16-byte representation, `none` where Go returns
`nil`. -/

/-- Model of the stdlib `dtoi`: decimal scan with the `0xFFFFFF` cutoff,
returning the value and the unconsumed remainder. -/
def dtoiLoop : Nat → List Char → Option (Nat × List Char)
  | n, [] => some (n, [])
  | n, c :: cs =>
    if '0' ≤ c ∧ c ≤ '9' then
      let n' := n * 10 + (c.toNat - 48)
      if 16777215 ≤ n' then none else dtoiLoop n' cs
    else some (n, c :: cs)

/-- Decimal number scan requiring at least one leading digit. -/
def dtoi (l : List Char) : Option (Nat × List Char) :=
  match l with
  | c :: _ => if '0' ≤ c ∧ c ≤ '9' then dtoiLoop 0 l else none
  | [] => none

/-- Hexadecimal digit value. -/
def hexVal (c : Char) : Option Nat :=
  if '0' ≤ c ∧ c ≤ '9' then some (c.toNat - 48)
  else if 'a' ≤ c ∧ c ≤ 'f' then some (c.toNat - 97 + 10)
  else if 'A' ≤ c ∧ c ≤ 'F' then some (c.toNat - 65 + 10)
  else none

/-- Model of the stdlib `xtoi`: hex scan with the `0xFFFFFF` cutoff. -/
def xtoiLoop : Nat → List Char → Option (Nat × List Char)
  | n, [] => some (n, [])
  | n, c :: cs =>
    match hexVal c with
    | some d =>
      let n' := n * 16 + d
      if 16777215 ≤ n' then none else xtoiLoop n' cs
    | none => some (n, c :: cs)

/-- Hex number scan requiring at least one leading hex digit. -/
def xtoi (l : List Char) : Option (Nat × List Char) :=
  match l with
  | c :: _ => if (hexVal c).isSome then xtoiLoop 0 l else none
  | [] => none

/-- Remaining dotted-quad groups (each preceded by `'.'`, value ≤ 255). -/
def parseV4Rest : Nat → List Char → Option (List Nat)
  | 0, [] => some []
  | 0, _ :: _ => none
  | k + 1, l =>
    match l with
    | '.' :: l1 =>
      match dtoi l1 with
      | some (n, r) => if n > 255 then none else (parseV4Rest k r).map (fun xs => n :: xs)
      | none => none
    | _ => none

/-- Model of the stdlib `parseIPv4` (the four bytes, without the v4-in-v6
mapping). -/
def parseIPv4Go (l : List Char) : Option (List Nat) :=
  match dtoi l with
  | some (n, r) => if n > 255 then none else (parseV4Rest 3 r).map (fun xs => n :: xs)
  | none => none

/-- The 12-byte IPv4-in-IPv6 mapping used by the stdlib `IPv4` constructor. -/
def v4MappedPad : List Nat := [0, 0, 0, 0, 0, 0, 0, 0, 0, 0, 255, 255]

/-- The hex-groups loop of the stdlib `parseIPv6`; carries accumulated bytes
and the ellipsis position, returns them with the unconsumed remainder.  The
fuel is only a recursion bound; each iteration appends two bytes, so fuel 16
is never exhausted. -/
def parseV6Loop : Nat → List Char → List Nat → Option Nat → Option (List Nat × Option Nat × List Char)
  | 0, _, _, _ => none
  | fuel + 1, l, bytes, ell =>
    if bytes.length ≥ 16 then some (bytes, ell, l)
    else
      match xtoi l with
      | none => none
      | some (n, l1) =>
        if n > 65535 then none
        else if l1.head? = some '.' then
          if ell.isNone ∧ bytes.length ≠ 12 then none
          else if bytes.length + 4 > 16 then none
          else
            match parseIPv4Go l with
            | none => none
            | some ip4 => some (bytes ++ ip4, ell, [])
        else
          let bytes2 := bytes ++ [n / 256, n % 256]
          match l1 with
          | [] => some (bytes2, ell, [])
          | ':' :: l2 =>
            match l2 with
            | [] => none
            | ':' :: l3 =>
              if ell.isSome then none
              else if l3 = [] then some (bytes2, some bytes2.length, [])
              else parseV6Loop fuel l3 bytes2 (some bytes2.length)
            | _ :: _ => parseV6Loop fuel l2 bytes2 ell
          | _ :: _ => none

/-- Ellipsis expansion and final checks of the stdlib `parseIPv6`. -/
def v6Post (r : Option (List Nat × Option Nat × List Char)) : Option (List Nat) :=
  match r with
  | none => none
  | some (bytes, ell, rest) =>
    if rest ≠ [] then none
    else if bytes.length < 16 then
      match ell with
      | none => none
      | some e => some (bytes.take e ++ List.replicate (16 - bytes.length) 0 ++ bytes.drop e)
    else if ell.isSome then none
    else some bytes

/-- Model of the stdlib `parseIPv6`. -/
def parseIPv6Go (l : List Char) : Option (List Nat) :=
  match l with
  | ':' :: ':' :: rest =>
    if rest = [] then some (List.replicate 16 0)
    else v6Post (parseV6Loop 16 rest [] (some 0))
  | _ => v6Post (parseV6Loop 16 l [] none)

/-- Model of `net.ParseIP`: dispatch on the first `'.'` or `':'`. -/
def parseIPL (l : List Char) : Option (List Nat) :=
  match l.find? (fun c => c = '.' || c = ':') with
  | some '.' => (parseIPv4Go l).map (fun bs => v4MappedPad ++ bs)
  | some ':' => parseIPv6Go l
  | _ => none

/-- Model of `net.ParseIP` on strings; `none` is Go's `nil`. -/
def parseIP (s : String) : Option (List Nat) :=
  parseIPL s.data

/-! ### Data model (from the Go source) -/

/-- DNS resource record types handled by the source (plus a catch-all for
numeric codes the source does not name). -/
inductive RType where
  | A | AAAA | TXT | NS | CNAME | DNAME | PTR | MX | SRV | SOA | SSHFP
  | other (code : Nat)
deriving DecidableEq

/-- `dns.Type(t).String()`: uppercase textual form used as the record-store
key. -/
def rtypeString : RType → String
  | RType.A => "A"
  | RType.AAAA => "AAAA"
  | RType.TXT => "TXT"
  | RType.NS => "NS"
  | RType.CNAME => "CNAME"
  | RType.DNAME => "DNAME"
  | RType.PTR => "PTR"
  | RType.MX => "MX"
  | RType.SRV => "SRV"
  | RType.SOA => "SOA"
  | RType.SSHFP => "SSHFP"
  | RType.other n => "TYPE" ++ Nat.repr n

/-- `dns.ClassINET`. -/
def classINET : Nat := 1

/-- `dns.RcodeSuccess` (NOERROR). -/
def rcodeSuccess : Nat := 0

/-- `dns.RcodeNameError` (NXDOMAIN). -/
def rcodeNameError : Nat := 3

/-- `DNSValue`: one stored record body.  `expiration` is the value of
`Expiration.Unix()` when the pointer is non-nil. -/
structure DNSValue where
  expiration : Option Int
  ttl : Nat
  value : String
  attr : List (String × String)
deriving DecidableEq

/-- `DNSEntry`: what the record store returns for one (name, rrtype) key. -/
structure DNSEntry where
  ttl : Nat
  values : List DNSValue
  meta : List (String × String)
deriving DecidableEq

/-- Go map indexing `m[k]` on a string map: the empty string when absent. -/
def mapGet (m : List (String × String)) (k : String) : String :=
  (m.lookup k).getD ""

/-- `dns.Question`. -/
structure Question where
  name : String
  qtype : RType
  qclass : Nat
deriving DecidableEq

/-- Resource-record header (name, rrtype, class, TTL). -/
structure RRHeader where
  name : String
  rrtype : RType
  rrclass : Nat
  ttl : Nat
deriving DecidableEq

/-- Rrtype-specific payload of a resource record.  The `a`/`aaaa` payload
keeps the raw `net.ParseIP` result, which is `none` (Go `nil`) for an
invalid literal. -/
inductive RData where
  | soa (ns mbox : String) (serial refresh retryI expire minttl : Nat)
  | txt (txt : List String)
  | a (ip : Option (List Nat))
  | aaaa (ip : Option (List Nat))
  | ns (ns : String)
  | cname (target : String)
  | dname (target : String)
  | ptr (ptr : String)
  | mx (preference : Nat) (mx : String)
  | srv (priority weight port : Nat) (target : String)
deriving DecidableEq

/-- A wire-format resource record. -/
structure RR where
  header : RRHeader
  rdata : RData
deriving DecidableEq

/-- A DNS message (the fields of `dns.Msg` the source reads or writes). -/
structure DnsMsg where
  id : Nat
  response : Bool
  authoritative : Bool
  truncated : Bool
  question : List Question
  answer : List RR
  rcode : Nat
deriving DecidableEq

/-- Result of one `dns.Client.Exchange` call.  The miekg/dns client never
returns a nil message together with a nil error, which the constructors
encode. -/
inductive ExchResult where
  | ok (m : DnsMsg)
  | errWithMsg (m : DnsMsg)
  | errNoMsg
deriving DecidableEq

/-- External collaborators and configuration of one resolution:
the record store (`p.RR`, with errors conflated with not-found exactly as
`fetchBestEntry` treats them), the `p.HasRR` oracle (`none` = error), the
configured default TTL and forwarder list, the upstream exchange oracle
(net, server, question name, question type), and the current Unix time. -/
structure Env where
  store : String → String → Option DNSEntry
  hasRR : String → String → Option Bool
  defaultTTL : Nat
  forwarders : List String
  exch : String → String → String → RType → ExchResult
  now : Int

/-! ### Answer builders (from `answerSOA` .. `answerSRV`) -/

/-- `answerSOA`: SOA record from the entry's meta fields; serial is the
current Unix time narrowed to `uint32`. -/
def answerSOA (name : String) (e : DNSEntry) (now : Int) : RR :=
  { header := { name := name, rrtype := RType.SOA, rrclass := classINET, ttl := 0 },
    rdata := RData.soa (dotTerminate (mapGet e.meta "ns")) (dotTerminate (mapGet e.meta "mbox"))
      (uint32ofInt now) 60 60 60 60 }

/-- `answerTXT`. -/
def answerTXT (name : String) (v : DNSValue) : RR :=
  { header := { name := name, rrtype := RType.TXT, rrclass := classINET, ttl := 0 },
    rdata := RData.txt [v.value] }

/-- `answerA`: stores the raw `net.ParseIP` result without checking it. -/
def answerA (name : String) (v : DNSValue) : RR :=
  { header := { name := name, rrtype := RType.A, rrclass := classINET, ttl := 0 },
    rdata := RData.a (parseIP v.value) }

/-- `answerAAAA`: stores the raw `net.ParseIP` result without checking it. -/
def answerAAAA (name : String) (v : DNSValue) : RR :=
  { header := { name := name, rrtype := RType.AAAA, rrclass := classINET, ttl := 0 },
    rdata := RData.aaaa (parseIP v.value) }

/-- `answerNS`. -/
def answerNS (name : String) (v : DNSValue) : RR :=
  { header := { name := name, rrtype := RType.NS, rrclass := classINET, ttl := 0 },
    rdata := RData.ns (dotTerminate v.value) }

/-- `answerCNAME`: the record plus the normalized target used for chasing. -/
def answerCNAME (name : String) (v : DNSValue) : RR × String :=
  ({ header := { name := name, rrtype := RType.CNAME, rrclass := classINET, ttl := 0 },
     rdata := RData.cname (dotTerminate v.value) }, dotTerminate v.value)

/-- `answerDNAME`. -/
def answerDNAME (name : String) (v : DNSValue) : RR :=
  { header := { name := name, rrtype := RType.DNAME, rrclass := classINET, ttl := 0 },
    rdata := RData.dname (dotTerminate v.value) }

/-- `answerPTR`. -/
def answerPTR (name : String) (v : DNSValue) : RR :=
  { header := { name := name, rrtype := RType.PTR, rrclass := classINET, ttl := 0 },
    rdata := RData.ptr (dotTerminate v.value) }

/-- `answerMX`: preference from `attr["priority"]` (default 50); exchange
from `attr["target"]`, else from the value when non-empty, else the zero
value `""`. -/
def answerMX (name : String) (v : DNSValue) : RR :=
  let pref := match atoi (mapGet v.attr "priority") with
    | some k => uint16ofInt k
    | none => 50
  let mx := match v.attr.lookup "target" with
    | some t => dotTerminate t
    | none => if v.value ≠ "" then dotTerminate v.value else ""
  { header := { name := name, rrtype := RType.MX, rrclass := classINET, ttl := 0 },
    rdata := RData.mx pref mx }

/-- `strings.Split(s, ":")`. -/
def splitColon (s : String) : List String :=
  splitGo s (fun c => c == ':')

/-- `answerSRV`: priority/weight/port from attrs (defaults 50/50/0); target
from `attr["target"]`, else the value split as `host:port` — in which case a
parsable port suffix overwrites any port taken from the attrs. -/
def answerSRV (name : String) (v : DNSValue) : RR :=
  let priority := match atoi (mapGet v.attr "priority") with
    | some k => uint16ofInt k
    | none => 50
  let weight := match atoi (mapGet v.attr "weight") with
    | some k => uint16ofInt k
    | none => 50
  let port0 := match atoi (mapGet v.attr "port") with
    | some k => uint16ofInt k
    | none => 0
  let tp : String × Nat := match v.attr.lookup "target" with
    | some t => (dotTerminate t, port0)
    | none =>
      if v.value ≠ "" then
        match splitColon v.value with
        | p0 :: p1 :: _ =>
          (dotTerminate p0,
           match atoi p1 with
           | some k => uint16ofInt k
           | none => port0)
        | p0 :: [] => (dotTerminate p0, port0)
        | [] => ("", port0)
      else ("", port0)
  { header := { name := name, rrtype := RType.SRV, rrclass := classINET, ttl := 0 },
    rdata := RData.srv priority weight tp.2 tp.1 }

/-! ### Authority oracle (`haveAuthority`) -/

/-- One authority probe: `HasRR(name, "SOA")` then `HasRR(name, "DNAME")`;
a probe counts only when it returned without error and found the record. -/
def authCheck (hasRR : String → String → Option Bool) (name : String) : Bool :=
  (hasRR name "SOA" = some true) || (hasRR name "DNAME" = some true)

/-- The suffix walk of `haveAuthority`: for `i` from `0` to `len-2`, probe
`strings.Join(nameParts[i:], ".")` (the final single-label suffix — the TLD —
is skipped). -/
def authLoop (hasRR : String → String → Option Bool) : List String → Bool
  | [] => false
  | _ :: [] => false
  | p :: q :: rest =>
    authCheck hasRR (String.intercalate "." (p :: q :: rest)) || authLoop hasRR (q :: rest)

/-- `haveAuthority`: split the dot-trimmed name on `"."` and walk suffixes. -/
def haveAuthority (env : Env) (name : String) : Bool :=
  authLoop env.hasRR (splitGo (trimSuffixDot name) (fun c => c == '.'))

/-! ### Forwarder client (`forwardQuestion`) -/

/-- One upstream attempt: exchange over UDP, retry the same upstream over TCP
when the returned message is non-nil and truncated; the first component is
`some answerSection` when the final exchange had no error, and the second
lists the (net, server) contacts made. -/
def tryServer (exch : String → String → ExchResult) (server : String) :
    Option (List RR) × List (String × String) :=
  let srv := trimSpace server
  match exch "udp" srv with
  | ExchResult.ok m =>
    if m.truncated then
      match exch "tcp" srv with
      | ExchResult.ok m2 => (some m2.answer, [("udp", srv), ("tcp", srv)])
      | ExchResult.errWithMsg _ => (none, [("udp", srv), ("tcp", srv)])
      | ExchResult.errNoMsg => (none, [("udp", srv), ("tcp", srv)])
    else (some m.answer, [("udp", srv)])
  | ExchResult.errWithMsg m =>
    if m.truncated then
      match exch "tcp" srv with
      | ExchResult.ok m2 => (some m2.answer, [("udp", srv), ("tcp", srv)])
      | ExchResult.errWithMsg _ => (none, [("udp", srv), ("tcp", srv)])
      | ExchResult.errNoMsg => (none, [("udp", srv), ("tcp", srv)])
    else (none, [("udp", srv)])
  | ExchResult.errNoMsg => (none, [("udp", srv)])

/-- The `for _, server := range forwarders` loop: first upstream whose final
exchange succeeds wins; failures are skipped. -/
def forwardLoop (exch : String → String → ExchResult) : List String → List RR × List (String × String)
  | [] => ([], [])
  | srv :: rest =>
    match tryServer exch srv with
    | (some ans, tr) => (ans, tr)
    | (none, tr) =>
      let r := forwardLoop exch rest
      (r.1, tr ++ r.2)

/-- `forwardQuestion`: empty list → nothing; a first entry that trims to
`"!"` → nothing (and no upstream contacted); otherwise the loop. -/
def forwardQuestion (exch : String → String → ExchResult) (forwarders : List String) :
    List RR × List (String × String) :=
  match forwarders with
  | [] => ([], [])
  | f0 :: _ =>
    if trimSpace f0 = "!" then ([], [])
    else forwardLoop exch forwarders

/-! ### Resolution core (`answerQuestion`, `fetchBestEntry`) -/

/-- `fetchBestEntry` / `fetchRelatedEntries`: probe (name, CNAME) first, then
(name, qtype) unless qtype is CNAME; the first probe that returns without
error wins (any store error is treated like not-found, as the source does). -/
def fetchBestEntry (store : String → String → Option DNSEntry) (q : Question) :
    Option (DNSEntry × RType) :=
  match store q.name (rtypeString RType.CNAME) with
  | some e => some (e, RType.CNAME)
  | none =>
    if q.qtype = RType.CNAME then none
    else
      match store q.name (rtypeString q.qtype) with
      | some e => some (e, q.qtype)
      | none => none

/-- The mutable state of `answerQuestion`'s value loop.  `name` models the
shared `*dns.Question` that the CNAME case mutates (`q2 := q; q2.Name =
target` overwrites the question's name for the rest of the call).
`fwdTrace` records, for each `forwardQuestion` call made, the question name
forwarded and the `qDepth` argument of the `answerQuestion` invocation that
made it. -/
structure LoopState where
  name : String
  answerTTL : Nat
  answers : List RR
  secondary : List RR
  wantsForwarder : Bool
  fwdTrace : List (String × Nat)
deriving DecidableEq

/-- Loop state on entry to the value loop (`wouldLikeForwarder` was just set
to false; `answerTTL` holds the entry TTL if positive, else the default). -/
def initState (name : String) (t : Nat) : LoopState :=
  { name := name, answerTTL := t, answers := [], secondary := [],
    wantsForwarder := false, fwdTrace := [] }

/-- `value.Expiration != nil && value.Expiration.Unix() < now`. -/
def isExpired (now : Int) (v : DNSValue) : Bool :=
  match v.expiration with
  | some e => decide (e < now)
  | none => false

/-- The two TTL reductions the loop applies for a non-expired value: first
`remaining = uint32(expiration - now)` when expiration is set, then the
per-value TTL when positive; each lowers `answerTTL` when smaller. -/
def ttlAdjustVal (now : Int) (v : DNSValue) (t : Nat) : Nat :=
  let t1 := match v.expiration with
    | some e =>
      let remaining := uint32ofInt (e - now)
      if remaining < t then remaining else t
    | none => t
  if v.ttl > 0 ∧ v.ttl < t1 then v.ttl else t1

/-- TTL reductions applied to the loop state. -/
def ttlAdjust (now : Int) (v : DNSValue) (st : LoopState) : LoopState :=
  { st with answerTTL := ttlAdjustVal now v st.answerTTL }

/-- The `switch rrType` dispatch of the value loop.  `chase` is the recursive
`answerQuestion` call on the rewritten question; its `none` (fuel exhausted)
aborts the run.  The CNAME case also overwrites the loop's question name with
the target, as the pointer write in the source does. -/
def buildStep (chase : String → Option (List RR × List (String × Nat)))
    (rrType : RType) (v : DNSValue) (st : LoopState) : Option LoopState :=
  match rrType with
  | RType.TXT => some { st with answers := st.answers ++ [answerTXT st.name v] }
  | RType.A => some { st with answers := st.answers ++ [answerA st.name v] }
  | RType.AAAA => some { st with answers := st.answers ++ [answerAAAA st.name v] }
  | RType.NS => some { st with answers := st.answers ++ [answerNS st.name v] }
  | RType.CNAME =>
    let p := answerCNAME st.name v
    match chase p.2 with
    | none => none
    | some (rrs, tr) =>
      some { st with answers := st.answers ++ [p.1], name := p.2,
                     secondary := st.secondary ++ rrs, fwdTrace := st.fwdTrace ++ tr }
  | RType.DNAME =>
    some { st with answers := st.answers ++ [answerDNAME st.name v], wantsForwarder := true }
  | RType.PTR => some { st with answers := st.answers ++ [answerPTR st.name v] }
  | RType.MX => some { st with answers := st.answers ++ [answerMX st.name v] }
  | RType.SRV => some { st with answers := st.answers ++ [answerSRV st.name v] }
  | _ => some st

/-- The `for i := range entry.Values` loop: skip expired values entirely;
otherwise reduce the TTL and dispatch on the record type. -/
def processValues (chase : String → Option (List RR × List (String × Nat)))
    (now : Int) (rrType : RType) : List DNSValue → LoopState → Option LoopState
  | [], st => some st
  | v :: vs, st =>
    if isExpired now v then processValues chase now rrType vs st
    else
      match buildStep chase rrType v (ttlAdjust now v st) with
      | none => none
      | some st2 => processValues chase now rrType vs st2

/-- The final `for _, answer := range answers` loop that overwrites every
primary answer's header TTL. -/
def applyTTL (t : Nat) (rs : List RR) : List RR :=
  rs.map (fun r => { r with header := { r.header with ttl := t } })

/-- `answerQuestion`, indexed by fuel (`none` = fuel exhausted inside a CNAME
chase).  The result is the answer slice plus the forward trace: one entry
`(name, qDepth)` per `forwardQuestion` call, annotated with the `qDepth`
argument of the invocation that reached the fallback.  `qDepth` itself only
feeds the trace — in the source it only selects a log line. -/
def answerQuestionF : Nat → Env → Question → Nat → Option (List RR × List (String × Nat))
  | 0, _, _, _ => none
  | Nat.succ n, env, q, qDepth =>
    match fetchBestEntry env.store q with
    | none =>
      if haveAuthority env q.name then some ([], [])
      else
        some ((forwardQuestion (fun net srv => env.exch net srv q.name q.qtype) env.forwarders).1,
              [(q.name, qDepth)])
    | some (entry, rrType) =>
      let ttl0 := if entry.ttl > 0 then entry.ttl else env.defaultTTL
      if q.qtype = RType.SOA then
        some (applyTTL ttl0 [answerSOA q.name entry env.now], [])
      else
        match processValues (fun t => answerQuestionF n env { q with name := t } (qDepth + 1))
            env.now rrType entry.values (initState q.name ttl0) with
        | none => none
        | some st =>
          let primary := applyTTL st.answerTTL st.answers
          if st.wantsForwarder ∧ haveAuthority env st.name = false then
            some (primary ++ st.secondary ++
                (forwardQuestion (fun net srv => env.exch net srv st.name q.qtype) env.forwarders).1,
              st.fwdTrace ++ [(st.name, qDepth)])
          else some (primary ++ st.secondary, st.fwdTrace)

/-! ### Server frontend (`dnsQueryServe`, `prepareAnswerMsg`,
`prepareFailureMsg`) -/

/-- `prepareAnswerMsg`: copy id and question, mark response, authoritative is
unconditionally true, NOERROR. -/
def prepareAnswerMsg (req : DnsMsg) (answers : List RR) : DnsMsg :=
  { id := req.id, response := true, authoritative := true, truncated := false,
    question := req.question, answer := answers, rcode := rcodeSuccess }

/-- `prepareFailureMsg`: copy id and question, mark response, authoritative is
unconditionally true, NXDOMAIN, no answers. -/
def prepareFailureMsg (req : DnsMsg) : DnsMsg :=
  { id := req.id, response := true, authoritative := true, truncated := false,
    question := req.question, answer := [], rcode := rcodeNameError }

/-- Per-question lookups in request order, answers concatenated in that order
(the in-process cache is an external collaborator and is modelled as a
pass-through to `answerQuestion` at depth 0). -/
def collectAnswers (fuel : Nat) (env : Env) : List Question → Option (List RR)
  | [] => some []
  | q :: qs =>
    match answerQuestionF fuel env q 0 with
    | none => none
    | some (ans, _) =>
      match collectAnswers fuel env qs with
      | none => none
      | some rest => some (ans ++ rest)

/-- Observable outcome of `dnsQueryServe` on one request. -/
inductive ServeOutcome where
  | dropped
  | panicIndexOutOfRange
  | reply (m : DnsMsg)
deriving DecidableEq

/-- `dnsQueryServe`: a message marked as a response is logged — which indexes
`req.Question[0]` unconditionally, an out-of-range access when the question
section is empty — and dropped; otherwise the questions are answered and a
reply (answer message when any answers, failure message otherwise) is
written. -/
def dnsQueryServe (fuel : Nat) (env : Env) (req : DnsMsg) : Option ServeOutcome :=
  if req.response then
    some (match req.question with
      | [] => ServeOutcome.panicIndexOutOfRange
      | _ :: _ => ServeOutcome.dropped)
  else
    match collectAnswers fuel env req.question with
    | none => none
    | some answers =>
      if answers.length > 0 then some (ServeOutcome.reply (prepareAnswerMsg req answers))
      else some (ServeOutcome.reply (prepareFailureMsg req))

/-! ### Specification-side TTL formulas -/

/-- TTL candidates one stored value contributes: `uint32(expiration − now)`
when expiration is set, and the per-value TTL when positive (in the order the
loop applies them). -/
def candTTLs (now : Int) (v : DNSValue) : List Nat :=
  (match v.expiration with
   | some e => [uint32ofInt (e - now)]
   | none => []) ++
  (if v.ttl > 0 then [v.ttl] else [])

/-- TTL candidates of a value list, expired values contributing nothing. -/
def ttlCands (now : Int) : List DNSValue → List Nat
  | [] => []
  | v :: vs => (if isExpired now v then [] else candTTLs now v) ++ ttlCands now vs

/-- The response TTL the code computes: the minimum of the entry TTL when
positive — otherwise the default TTL — and every per-value candidate. -/
def effectiveTTL (dttl : Nat) (e : DNSEntry) (now : Int) : Nat :=
  List.foldl Nat.min (if e.ttl > 0 then e.ttl else dttl) (ttlCands now e.values)

/-- The response TTL claim C1 describes, following the spec's words: the
configured default TTL participates in the minimum unconditionally, alongside
the entry TTL when positive. -/
def specClaimTTL (dttl : Nat) (e : DNSEntry) (now : Int) : Nat :=
  List.foldl Nat.min (if e.ttl > 0 then Nat.min dttl e.ttl else dttl) (ttlCands now e.values)

/-- Termination of a resolution: some fuel suffices. -/
def resolvesSome (env : Env) (q : Question) : Prop :=
  ∃ n, (answerQuestionF n env q 0).isSome = true

/-! ### Concrete fixtures used by witnesses and counterexamples -/

/-- A stored A value with no expiration and no per-value TTL. -/
def vC1 : DNSValue := { expiration := none, ttl := 0, value := "10.0.0.7", attr := [] }

/-- An entry whose TTL (7200) exceeds the configured default (300). -/
def entryC1 : DNSEntry := { ttl := 7200, values := [vC1], meta := [] }

/-- Environment for the TTL counterexample: default TTL 300, one A entry. -/
def envC1 : Env :=
  { store := fun name ty =>
      if name = "host.example.com." ∧ ty = "A" then some entryC1 else none,
    hasRR := fun _ _ => some false,
    defaultTTL := 300,
    forwarders := [],
    exch := fun _ _ _ _ => ExchResult.errNoMsg,
    now := 0 }

/-- The question `host.example.com. A`. -/
def qC1 : Question := { name := "host.example.com.", qtype := RType.A, qclass := classINET }

/-- Environment with an empty store, no authority anywhere, no forwarders. -/
def envEmpty : Env :=
  { store := fun _ _ => none,
    hasRR := fun _ _ => some false,
    defaultTTL := 300,
    forwarders := [],
    exch := fun _ _ _ _ => ExchResult.errNoMsg,
    now := 0 }

/-- A plain query message carrying one question. -/
def reqC2 : DnsMsg :=
  { id := 7, response := false, authoritative := false, truncated := false,
    question := [qC1], answer := [], rcode := 0 }

/-- A message marked as a response whose question section is empty. -/
def reqC10 : DnsMsg :=
  { id := 9, response := true, authoritative := false, truncated := false,
    question := [], answer := [], rcode := 0 }

/-- A stored value whose string ends in two dots. -/
def vDots : DNSValue := { expiration := none, ttl := 0, value := "tgt..", attr := [] }

/-- The SRV value of scenario S6 with an additional conflicting `attr.port`. -/
def vC4 : DNSValue :=
  { expiration := none, ttl := 0, value := "sip.example.com:5060",
    attr := [("priority", "10"), ("weight", "20"), ("port", "1000")] }

/-- A stored value whose string is not a valid address literal. -/
def vBad : DNSValue := { expiration := none, ttl := 0, value := "bogus", attr := [] }

/-- Environment whose store has one A entry holding an invalid literal. -/
def envC5 : Env :=
  { store := fun name ty =>
      if name = "bad.example.com." ∧ ty = "A" then
        some { ttl := 0, values := [vBad], meta := [] }
      else none,
    hasRR := fun _ _ => some false,
    defaultTTL := 300,
    forwarders := [],
    exch := fun _ _ _ _ => ExchResult.errNoMsg,
    now := 0 }

/-- The question `bad.example.com. A`. -/
def qC5 : Question := { name := "bad.example.com.", qtype := RType.A, qclass := classINET }

/-- A record served by the upstream oracle of the chase counterexample. -/
def rrUp : RR :=
  { header := { name := "b.example.com.", rrtype := RType.A, rrclass := classINET, ttl := 42 },
    rdata := RData.a (parseIP "10.9.9.9") }

/-- Environment for the chase counterexample: a CNAME from `a.example.com.`
to `b.example.com.`, nothing stored for the target, no authority, one
responsive upstream. -/
def envC6 : Env :=
  { store := fun name ty =>
      if name = "a.example.com." ∧ ty = "CNAME" then
        some { ttl := 0, values := [{ expiration := none, ttl := 0, value := "b.example.com", attr := [] }], meta := [] }
      else none,
    hasRR := fun _ _ => some false,
    defaultTTL := 300,
    forwarders := ["203.0.113.1:53"],
    exch := fun net _ _ _ =>
      if net = "udp" then
        ExchResult.ok { id := 0, response := true, authoritative := false, truncated := false,
                        question := [], answer := [rrUp], rcode := 0 }
      else ExchResult.errNoMsg,
    now := 0 }

/-- The question `a.example.com. A`. -/
def qC6 : Question := { name := "a.example.com.", qtype := RType.A, qclass := classINET }

/-- Environment whose CNAME records form a two-cycle
`a.example.com. ↔ b.example.com.`. -/
def envC7 : Env :=
  { store := fun name ty =>
      if ty = "CNAME" ∧ name = "a.example.com." then
        some { ttl := 0, values := [{ expiration := none, ttl := 0, value := "b.example.com", attr := [] }], meta := [] }
      else if ty = "CNAME" ∧ name = "b.example.com." then
        some { ttl := 0, values := [{ expiration := none, ttl := 0, value := "a.example.com", attr := [] }], meta := [] }
      else none,
    hasRR := fun _ _ => some false,
    defaultTTL := 300,
    forwarders := [],
    exch := fun _ _ _ _ => ExchResult.errNoMsg,
    now := 0 }

/-- The question `a.example.com. A` of the cycle. -/
def qC7a : Question := { name := "a.example.com.", qtype := RType.A, qclass := classINET }

/-- The question `b.example.com. A` of the cycle. -/
def qC7b : Question := { name := "b.example.com.", qtype := RType.A, qclass := classINET }

/-- A record returned by the witness upstream of the forwarder contract. -/
def rrT : RR :=
  { header := { name := "t.example.com.", rrtype := RType.TXT, rrclass := classINET, ttl := 5 },
    rdata := RData.txt ["up"] }

/-- Witness exchange oracle: `s1:53` always errors; `s2:53` answers truncated
over UDP and completely over TCP. -/
def exchW : String → String → ExchResult := fun net srv =>
  if srv = "s1:53" then ExchResult.errNoMsg
  else if srv = "s2:53" ∧ net = "udp" then
    ExchResult.errWithMsg { id := 0, response := true, authoritative := false, truncated := true,
                            question := [], answer := [], rcode := 0 }
  else if srv = "s2:53" ∧ net = "tcp" then
    ExchResult.ok { id := 0, response := true, authoritative := false, truncated := false,
                    question := [], answer := [rrT], rcode := 0 }
  else ExchResult.errNoMsg

/-- An already-expired stored value (expiration 5 < now 10). -/
def vExp : DNSValue := { expiration := some 5, ttl := 0, value := "10.0.0.9", attr := [] }

/-! ### Helper lemmas -/

lemma strData_append (a b : String) : (a ++ b).data = a.data ++ b.data := by
  cases a; cases b; rfl

lemma dotTerminate_single (s : String) (h : hasTwoTrailingDots s = false) :
    endsWithOneDot (dotTerminate s) = true := by
  unfold hasTwoTrailingDots at h
  unfold endsWithOneDot dotTerminate trimSuffixDot
  rw [strData_append]
  show endsOneDotL (((trimDotR s.data.reverse).reverse ++ ['.']).reverse) = true
  rw [List.reverse_append, List.reverse_reverse]
  rcases hr : s.data.reverse with _ | ⟨c, rest⟩
  · rfl
  · rw [hr] at h
    unfold twoDotsL at h
    unfold trimDotR
    by_cases hc : c = '.'
    · subst hc
      simp only [if_pos rfl]
      rcases rest with _ | ⟨c2, t⟩
      · rfl
      · have hc2 : ¬ c2 = '.' := by
          intro hc2
          subst hc2
          simp at h
        simp [endsOneDotL, hc2]
    · simp [endsOneDotL, hc]

lemma ttlAdjustVal_foldl (now : Int) (v : DNSValue) (t : Nat) :
    ttlAdjustVal now v t = List.foldl Nat.min t (candTTLs now v) := by
  unfold ttlAdjustVal candTTLs
  rcases v.expiration with _ | e
  · by_cases h : v.ttl > 0
    · simp only [if_pos h, List.nil_append, List.foldl_cons, List.foldl_nil]
      by_cases h2 : v.ttl < t
      · rw [if_pos ⟨h, h2⟩]
        simp only [Nat.min_def]
        split_ifs <;> omega
      · rw [if_neg (by tauto)]
        simp only [Nat.min_def]
        split_ifs <;> omega
    · simp only [if_neg h, List.nil_append, List.foldl_nil]
      rw [if_neg (by tauto)]
  · by_cases h : v.ttl > 0
    · simp only [if_pos h, List.cons_append, List.nil_append, List.foldl_cons, List.foldl_nil]
      by_cases h1 : uint32ofInt (e - now) < t
      · rw [if_pos h1]
        by_cases h2 : v.ttl < uint32ofInt (e - now)
        · rw [if_pos ⟨h, h2⟩]
          simp only [Nat.min_def]
          split_ifs <;> omega
        · rw [if_neg (by tauto)]
          simp only [Nat.min_def]
          split_ifs <;> omega
      · rw [if_neg h1]
        by_cases h2 : v.ttl < t
        · rw [if_pos ⟨h, h2⟩]
          simp only [Nat.min_def]
          split_ifs <;> omega
        · rw [if_neg (by tauto)]
          simp only [Nat.min_def]
          split_ifs <;> omega
    · simp only [if_neg h, List.cons_append, List.nil_append, List.foldl_cons, List.foldl_nil]
      by_cases h1 : uint32ofInt (e - now) < t
      · rw [if_pos h1, if_neg (by tauto)]
        simp only [Nat.min_def]
        split_ifs <;> omega
      · rw [if_neg h1, if_neg (by tauto)]
        simp only [Nat.min_def]
        split_ifs <;> omega

lemma buildStep_ttl (chase : String → Option (List RR × List (String × Nat)))
    (rrType : RType) (v : DNSValue) (st st2 : LoopState)
    (h : buildStep chase rrType v st = some st2) : st2.answerTTL = st.answerTTL := by
  cases rrType <;> simp only [buildStep] at h <;> try (cases h; rfl)
  rcases hch : chase (answerCNAME st.name v).2 with _ | ⟨rrs, tr⟩ <;> rw [hch] at h
  · cases h
  · cases h
    rfl

lemma processValues_ttl (chase : String → Option (List RR × List (String × Nat)))
    (now : Int) (rrType : RType) :
    ∀ (vals : List DNSValue) (st st2 : LoopState),
      processValues chase now rrType vals st = some st2 →
      st2.answerTTL = List.foldl Nat.min st.answerTTL (ttlCands now vals) := by
  intro vals
  induction vals with
  | nil =>
    intro st st2 h
    simp only [processValues] at h
    cases h
    rfl
  | cons v vs ih =>
    intro st st2 h
    simp only [processValues] at h
    by_cases hexp : isExpired now v = true
    · rw [if_pos hexp] at h
      rw [ih st st2 h]
      simp [ttlCands, hexp]
    · rw [if_neg hexp] at h
      rcases hb : buildStep chase rrType v (ttlAdjust now v st) with _ | st1 <;> rw [hb] at h
      · cases h
      · have h1 : st1.answerTTL = ttlAdjustVal now v st.answerTTL := by
          have := buildStep_ttl chase rrType v (ttlAdjust now v st) st1 hb
          rw [this]
          rfl
        rw [ih st1 st2 h, h1, ttlAdjustVal_foldl]
        rw [show ttlCands now (v :: vs) = candTTLs now v ++ ttlCands now vs by
          simp [ttlCands, (Bool.not_eq_true _).mp hexp]]
        rw [List.foldl_append]

lemma mem_applyTTL (t : Nat) (rs : List RR) :
    ∀ rr ∈ applyTTL t rs, rr.header.ttl = t := by
  intro rr hrr
  unfold applyTTL at hrr
  rcases List.mem_map.mp hrr with ⟨r, _, hEq⟩
  rw [← hEq]

/-! ### Claim C9 -/

/-- C9: a stored value whose expiration is set and strictly earlier than the
current time is skipped entirely by the value loop — it emits no resource
record and contributes nothing to the response TTL. -/
theorem expired_value_skipped (chase : String → Option (List RR × List (String × Nat)))
    (now : Int) (rrType : RType) (v : DNSValue) (vs : List DNSValue) (st : LoopState)
    (e : Int) (he : v.expiration = some e) (hlt : e < now) :
    processValues chase now rrType (v :: vs) st = processValues chase now rrType vs st := by
  have hexp : isExpired now v = true := by simp [isExpired, he, hlt]
  simp [processValues, hexp]

/-- Witness for C9 at a concrete expired value. -/
theorem expired_value_skipped_witness :
    vExp.expiration = some 5 ∧ (5 : Int) < 10 ∧
      processValues (fun _ => none) 10 RType.A [vExp] (initState "x." 300) =
        processValues (fun _ => none) 10 RType.A [] (initState "x." 300) :=
  ⟨rfl, by decide,
    expired_value_skipped (fun _ => none) 10 RType.A vExp [] (initState "x." 300) 5 rfl (by decide)⟩

/-! ### Claim C10 -/

/-- C10: a message whose header marks it as a response is dropped, but only
after `req.Question[0]` is read unconditionally for the log line; when the
question section is empty that access is out of bounds. -/
theorem bogus_response_indexing (fuel : Nat) (env : Env) (req : DnsMsg)
    (h : req.response = true) :
    dnsQueryServe fuel env req =
      some (if req.question = [] then ServeOutcome.panicIndexOutOfRange
            else ServeOutcome.dropped) := by
  unfold dnsQueryServe
  rw [h]
  simp only [if_true]
  rcases req.question with _ | ⟨q, qs⟩
  · simp
  · simp

/-- Witness for C10: a response message with an empty question section hits
the out-of-bounds access. -/
theorem bogus_response_indexing_witness :
    reqC10.response = true ∧ reqC10.question = [] ∧
      dnsQueryServe 1 envEmpty reqC10 = some ServeOutcome.panicIndexOutOfRange :=
  ⟨rfl, rfl, by simpa using bogus_response_indexing 1 envEmpty reqC10 rfl⟩

/-! ### Claim C2 -/

/-- Counterexample to C2 as stated: the reply for a question the server has
no authority for still carries `Authoritative = true` (the source sets the
flag unconditionally in both reply builders). -/
theorem authoritative_flag_refuted :
    dnsQueryServe 4 envEmpty reqC2 = some (ServeOutcome.reply (prepareFailureMsg reqC2)) ∧
    (prepareFailureMsg reqC2).authoritative = true ∧
    haveAuthority envEmpty "host.example.com." = false :=
  ⟨by decide, rfl, by decide⟩

/-- C2 as amended: the reply copies the request's ID and question section, is
marked as a response, has RCODE NOERROR exactly when the aggregate answer set
is non-empty and NXDOMAIN otherwise — but the authoritative flag is set
unconditionally, in both the answer and the failure message. -/
theorem dnsQueryServe_reply_shape (fuel : Nat) (env : Env) (req : DnsMsg) (ans : List RR)
    (hreq : req.response = false)
    (hans : collectAnswers fuel env req.question = some ans) :
    dnsQueryServe fuel env req =
      some (ServeOutcome.reply
        (if ans.length > 0 then prepareAnswerMsg req ans else prepareFailureMsg req)) ∧
    (prepareAnswerMsg req ans).id = req.id ∧ (prepareFailureMsg req).id = req.id ∧
    (prepareAnswerMsg req ans).question = req.question ∧
    (prepareFailureMsg req).question = req.question ∧
    (prepareAnswerMsg req ans).response = true ∧ (prepareFailureMsg req).response = true ∧
    (prepareAnswerMsg req ans).authoritative = true ∧
    (prepareFailureMsg req).authoritative = true ∧
    (prepareAnswerMsg req ans).answer = ans ∧ (prepareFailureMsg req).answer = [] ∧
    (prepareAnswerMsg req ans).rcode = rcodeSuccess ∧
    (prepareFailureMsg req).rcode = rcodeNameError := by
  refine ⟨?_, rfl, rfl, rfl, rfl, rfl, rfl, rfl, rfl, rfl, rfl, rfl, rfl⟩
  unfold dnsQueryServe
  rw [hreq]
  simp only [Bool.false_eq_true, if_false]
  simp only [hans]
  split_ifs with h
  · rfl
  · rfl

/-- Witness for the amended C2 at a concrete request. -/
theorem dnsQueryServe_reply_shape_witness :
    reqC2.response = false ∧
    collectAnswers 4 envEmpty reqC2.question = some [] ∧
    dnsQueryServe 4 envEmpty reqC2 =
      some (ServeOutcome.reply
        (if ([] : List RR).length > 0 then prepareAnswerMsg reqC2 [] else prepareFailureMsg reqC2)) :=
  ⟨rfl, by decide, (dnsQueryServe_reply_shape 4 envEmpty reqC2 [] rfl (by decide)).1⟩

/-! ### Claim C8 -/

/-- Whether an exchange yielded a non-nil message with the truncated bit set
(the condition `m != nil && m.MsgHdr.Truncated` for the TCP retry). -/
def exchMsgTruncated : ExchResult → Bool
  | ExchResult.ok m => m.truncated
  | ExchResult.errWithMsg m => m.truncated
  | ExchResult.errNoMsg => false

/-- The exchange a given upstream's attempt ends on: the TCP retry when the
UDP reply was truncated, the UDP exchange otherwise. -/
def finalExch (exch : String → String → ExchResult) (server : String) : ExchResult :=
  if exchMsgTruncated (exch "udp" (trimSpace server)) then exch "tcp" (trimSpace server)
  else exch "udp" (trimSpace server)

lemma tryServer_eq (exch : String → String → ExchResult) (srv : String) :
    tryServer exch srv =
      ((match finalExch exch srv with
        | ExchResult.ok m => some m.answer
        | ExchResult.errWithMsg _ => none
        | ExchResult.errNoMsg => none),
       (if exchMsgTruncated (exch "udp" (trimSpace srv))
        then [("udp", trimSpace srv), ("tcp", trimSpace srv)]
        else [("udp", trimSpace srv)])) := by
  unfold tryServer finalExch exchMsgTruncated
  rcases hu : exch "udp" (trimSpace srv) with m | m | _ <;> simp only [hu]
  case ok =>
    split_ifs with hm
    · rcases ht : exch "tcp" (trimSpace srv) with m2 | m2 | _ <;> simp only [ht]
    · rfl
  case errWithMsg =>
    split_ifs with hm
    · rcases ht : exch "tcp" (trimSpace srv) with m2 | m2 | _ <;> simp only [ht]
    · rfl
  case errNoMsg => rfl

lemma forwardLoop_all_fail (exch : String → String → ExchResult) :
    ∀ l : List String, (∀ s ∈ l, (tryServer exch s).1 = none) → (forwardLoop exch l).1 = [] := by
  intro l
  induction l with
  | nil => intro _; rfl
  | cons srv rest ih =>
    intro h
    have h0 : (tryServer exch srv).1 = none := h srv (List.mem_cons_self srv rest)
    unfold forwardLoop
    rcases ht : tryServer exch srv with ⟨o, tr⟩
    rw [ht] at h0
    simp only at h0
    subst h0
    simp only
    exact ih (fun s hs => h s (List.mem_cons_of_mem srv hs))

lemma forwardLoop_first_success (exch : String → String → ExchResult) :
    ∀ (pre : List String) (srv : String) (post : List String) (ans : List RR)
      (tr : List (String × String)),
      (∀ s ∈ pre, (tryServer exch s).1 = none) → tryServer exch srv = (some ans, tr) →
      (forwardLoop exch (pre ++ srv :: post)).1 = ans := by
  intro pre
  induction pre with
  | nil =>
    intro srv post ans tr _ hs
    simp only [List.nil_append]
    unfold forwardLoop
    rw [hs]
  | cons p rest ih =>
    intro srv post ans tr hfail hs
    have h0 : (tryServer exch p).1 = none := hfail p (List.mem_cons_self p rest)
    simp only [List.cons_append]
    unfold forwardLoop
    rcases ht : tryServer exch p with ⟨o, tr2⟩
    rw [ht] at h0
    simp only at h0
    subst h0
    simp only
    exact ih srv post ans tr (fun s hsm => hfail s (List.mem_cons_of_mem p hsm)) hs

/-- C8: the forwarder client returns nothing for an empty upstream list;
returns nothing without contacting any upstream when the first entry trims to
`"!"`; otherwise walks the upstreams in order — each attempt goes over UDP
and is retried over TCP exactly when the reply carried the truncated flag —
and yields the answer section of the first attempt whose final exchange
returned without error, or nothing when every upstream fails. -/
theorem forwardQuestion_contract (exch : String → String → ExchResult)
    (f0 srv : String) (rest pre post : List String) :
    forwardQuestion exch [] = ([], []) ∧
    (trimSpace f0 = "!" → forwardQuestion exch (f0 :: rest) = ([], [])) ∧
    (trimSpace f0 ≠ "!" → forwardQuestion exch (f0 :: rest) = forwardLoop exch (f0 :: rest)) ∧
    ((tryServer exch srv).2 =
      (if exchMsgTruncated (exch "udp" (trimSpace srv))
       then [("udp", trimSpace srv), ("tcp", trimSpace srv)]
       else [("udp", trimSpace srv)])) ∧
    ((tryServer exch srv).1 =
      (match finalExch exch srv with
       | ExchResult.ok m => some m.answer
       | ExchResult.errWithMsg _ => none
       | ExchResult.errNoMsg => none)) ∧
    ((∀ s ∈ f0 :: rest, (tryServer exch s).1 = none) → (forwardLoop exch (f0 :: rest)).1 = []) ∧
    (∀ ans tr, (∀ s ∈ pre, (tryServer exch s).1 = none) → tryServer exch srv = (some ans, tr) →
       (forwardLoop exch (pre ++ srv :: post)).1 = ans) := by
  refine ⟨rfl, ?_, ?_, ?_, ?_, forwardLoop_all_fail exch (f0 :: rest), ?_⟩
  · intro h
    simp [forwardQuestion, h]
  · intro h
    simp [forwardQuestion, h]
  · rw [tryServer_eq]
  · rw [tryServer_eq]
  · intro ans tr hfail hs
    exact forwardLoop_first_success exch pre srv post ans tr hfail hs

/-- Witness for C8 with a concrete oracle: first upstream fails, second is
truncated over UDP and answers over TCP; its answer section is returned and
the contact order is UDP `s1`, UDP `s2`, TCP `s2`. -/
theorem forwardQuestion_contract_witness :
    trimSpace "s1:53" ≠ "!" ∧
    forwardQuestion exchW ["s1:53", "s2:53"] = forwardLoop exchW ["s1:53", "s2:53"] ∧
    (∀ s ∈ ["s1:53"], (tryServer exchW s).1 = none) ∧
    tryServer exchW "s2:53" = (some [rrT], [("udp", "s2:53"), ("tcp", "s2:53")]) ∧
    (forwardLoop exchW (["s1:53"] ++ "s2:53" :: [])).1 = [rrT] ∧
    forwardQuestion exchW ["s1:53", "s2:53"] = ([rrT], [("udp", "s1:53"), ("udp", "s2:53"), ("tcp", "s2:53")]) :=
  ⟨by decide,
   (forwardQuestion_contract exchW "s1:53" "s2:53" ["s2:53"] ["s1:53"] []).2.2.1 (by decide),
   by decide,
   by decide,
   (forwardQuestion_contract exchW "s1:53" "s2:53" ["s2:53"] ["s1:53"] []).2.2.2.2.2.2
     [rrT] [("udp", "s2:53"), ("tcp", "s2:53")] (by decide) (by decide),
   by decide⟩

/-! ### Claim C3 -/

/-- The hostname-valued field of a record, for the rrtypes that carry one. -/
def rrHostField (r : RR) : Option String :=
  match r.rdata with
  | RData.ns s => some s
  | RData.cname t => some t
  | RData.dname t => some t
  | RData.ptr s => some s
  | RData.mx _ m => some m
  | RData.srv _ _ _ t => some t
  | _ => none

/-- The `Ns` hostname of an SOA record. -/
def soaNsOf (r : RR) : Option String :=
  match r.rdata with
  | RData.soa ns _ _ _ _ _ _ => some ns
  | _ => none

/-- The `Mbox` hostname of an SOA record. -/
def soaMboxOf (r : RR) : Option String :=
  match r.rdata with
  | RData.soa _ mbox _ _ _ _ _ => some mbox
  | _ => none

/-- Counterexample to C3 as stated: `strings.TrimSuffix` strips at most one
trailing dot, so a value ending in two dots is emitted still ending in two
dots, not exactly one. -/
theorem double_dot_not_collapsed :
    vDots.value = "tgt.." ∧
    (answerCNAME "alias.example.com." vDots).2 = "tgt.." ∧
    rrHostField (answerCNAME "alias.example.com." vDots).1 = some "tgt.." ∧
    endsWithOneDot "tgt.." = false ∧
    hasTwoTrailingDots "tgt.." = true :=
  ⟨rfl, by decide, by decide, by decide, by decide⟩

/-- C3 as amended: every hostname-valued field emitted by a builder equals
`TrimSuffix(input, ".") + "."`, which strips at most one trailing dot before
appending one; the result ends with exactly one trailing dot whenever the
input does not already end with two or more dots (and MX/SRV leave the field
as the empty string when both `attr.target` is absent and the value is
empty). -/
theorem hostname_emit_single_dot (name : String) (v : DNSValue) (e : DNSEntry) (now : Int) :
    (hasTwoTrailingDots v.value = false →
      endsWithOneDot ((rrHostField (answerNS name v)).getD "") = true ∧
      endsWithOneDot ((answerCNAME name v).2) = true ∧
      endsWithOneDot ((rrHostField (answerCNAME name v).1).getD "") = true ∧
      endsWithOneDot ((rrHostField (answerDNAME name v)).getD "") = true ∧
      endsWithOneDot ((rrHostField (answerPTR name v)).getD "") = true) ∧
    (hasTwoTrailingDots (mapGet e.meta "ns") = false →
      endsWithOneDot ((soaNsOf (answerSOA name e now)).getD "") = true) ∧
    (hasTwoTrailingDots (mapGet e.meta "mbox") = false →
      endsWithOneDot ((soaMboxOf (answerSOA name e now)).getD "") = true) ∧
    (∀ t, v.attr.lookup "target" = some t → hasTwoTrailingDots t = false →
      endsWithOneDot ((rrHostField (answerMX name v)).getD "") = true ∧
      endsWithOneDot ((rrHostField (answerSRV name v)).getD "") = true) ∧
    (v.attr.lookup "target" = none → v.value ≠ "" → hasTwoTrailingDots v.value = false →
      endsWithOneDot ((rrHostField (answerMX name v)).getD "") = true) ∧
    (∀ p0 ps, v.attr.lookup "target" = none → v.value ≠ "" → splitColon v.value = p0 :: ps →
      hasTwoTrailingDots p0 = false →
      endsWithOneDot ((rrHostField (answerSRV name v)).getD "") = true) := by
  refine ⟨?_, ?_, ?_, ?_, ?_, ?_⟩
  · intro h
    refine ⟨?_, ?_, ?_, ?_, ?_⟩ <;>
      simp [answerNS, answerCNAME, answerDNAME, answerPTR, rrHostField,
        dotTerminate_single v.value h]
  · intro h
    simp [answerSOA, soaNsOf, dotTerminate_single (mapGet e.meta "ns") h]
  · intro h
    simp [answerSOA, soaMboxOf, dotTerminate_single (mapGet e.meta "mbox") h]
  · intro t ht h
    constructor
    · simp [answerMX, rrHostField, ht, dotTerminate_single t h]
    · simp [answerSRV, rrHostField, ht, dotTerminate_single t h]
  · intro ht hv h
    simp [answerMX, rrHostField, ht, hv, dotTerminate_single v.value h]
  · intro p0 ps ht hv hsplit h
    rcases ps with _ | ⟨p1, ps'⟩
    · simp [answerSRV, rrHostField, ht, hv, hsplit, dotTerminate_single p0 h]
    · simp [answerSRV, rrHostField, ht, hv, hsplit, dotTerminate_single p0 h]

/-- Witness for the amended C3 at concrete inputs. -/
theorem hostname_emit_single_dot_witness :
    hasTwoTrailingDots "host.example.com" = false ∧
    endsWithOneDot ((answerCNAME "alias.example.com."
      { expiration := none, ttl := 0, value := "host.example.com", attr := [] }).2) = true :=
  ⟨by decide,
    ((hostname_emit_single_dot "alias.example.com."
      { expiration := none, ttl := 0, value := "host.example.com", attr := [] }
      { ttl := 0, values := [], meta := [] } 0).1 (by decide)).2.1⟩

/-! ### Claim C4 -/

/-- Priority of an SRV record. -/
def srvPriorityOf (r : RR) : Option Nat :=
  match r.rdata with
  | RData.srv p _ _ _ => some p
  | _ => none

/-- Weight of an SRV record. -/
def srvWeightOf (r : RR) : Option Nat :=
  match r.rdata with
  | RData.srv _ w _ _ => some w
  | _ => none

/-- Port of an SRV record. -/
def srvPortOf (r : RR) : Option Nat :=
  match r.rdata with
  | RData.srv _ _ p _ => some p
  | _ => none

/-- Target of an SRV record. -/
def srvTargetOf (r : RR) : Option String :=
  match r.rdata with
  | RData.srv _ _ _ t => some t
  | _ => none

/-- Counterexample to C4 as stated: with `attr.port = "1000"` and value
`sip.example.com:5060` (no `attr.target`), the emitted port is 5060 — the
value-suffix port overwrites the attr port, not the other way around. -/
theorem srv_attr_port_not_precedent :
    vC4.attr.lookup "port" = some "1000" ∧
    atoi "1000" = some 1000 ∧
    srvPortOf (answerSRV "_sip._tcp.example.com." vC4) = some 5060 ∧
    (5060 : Nat) ≠ 1000 :=
  ⟨rfl, by decide, by decide, by decide⟩

/-- C4 as amended: the SRV builder takes priority (default 50), weight
(default 50) and port (default 0) from the attrs; when `attr.target` is
absent and the value is non-empty the value is split as `host:port` — and
when the suffix holds a parsable port it overwrites the port taken from the
attrs, so the value-suffix port takes precedence over `attr.port`. -/
theorem answerSRV_contract (name : String) (v : DNSValue) :
    (v.attr.lookup "priority" = none → srvPriorityOf (answerSRV name v) = some 50) ∧
    (∀ s k, v.attr.lookup "priority" = some s → atoi s = some k →
      srvPriorityOf (answerSRV name v) = some (uint16ofInt k)) ∧
    (v.attr.lookup "weight" = none → srvWeightOf (answerSRV name v) = some 50) ∧
    (∀ s k, v.attr.lookup "weight" = some s → atoi s = some k →
      srvWeightOf (answerSRV name v) = some (uint16ofInt k)) ∧
    (∀ t, v.attr.lookup "target" = some t → v.attr.lookup "port" = none →
      srvPortOf (answerSRV name v) = some 0 ∧
      srvTargetOf (answerSRV name v) = some (dotTerminate t)) ∧
    (∀ p0 p1 ps k, v.attr.lookup "target" = none → v.value ≠ "" →
      splitColon v.value = p0 :: p1 :: ps → atoi p1 = some k →
      srvPortOf (answerSRV name v) = some (uint16ofInt k) ∧
      srvTargetOf (answerSRV name v) = some (dotTerminate p0)) ∧
    (∀ p0, v.attr.lookup "target" = none → v.value ≠ "" →
      splitColon v.value = [p0] →
      srvTargetOf (answerSRV name v) = some (dotTerminate p0) ∧
      (v.attr.lookup "port" = none → srvPortOf (answerSRV name v) = some 0)) := by
  refine ⟨?_, ?_, ?_, ?_, ?_, ?_, ?_⟩
  · intro h
    simp [answerSRV, srvPriorityOf, mapGet, h, atoi, decDigits]
  · intro s k hs hk
    simp [answerSRV, srvPriorityOf, mapGet, hs, hk]
  · intro h
    simp [answerSRV, srvWeightOf, mapGet, h, atoi, decDigits]
  · intro s k hs hk
    simp [answerSRV, srvWeightOf, mapGet, hs, hk]
  · intro t ht hp
    constructor
    · simp [answerSRV, srvPortOf, mapGet, ht, hp, atoi, decDigits]
    · simp [answerSRV, srvTargetOf, mapGet, ht]
  · intro p0 p1 ps k ht hv hsplit hk
    constructor
    · simp [answerSRV, srvPortOf, mapGet, ht, hv, hsplit, hk]
    · simp [answerSRV, srvTargetOf, mapGet, ht, hv, hsplit]
  · intro p0 ht hv hsplit
    constructor
    · simp [answerSRV, srvTargetOf, mapGet, ht, hv, hsplit]
    · intro hp
      simp [answerSRV, srvPortOf, mapGet, ht, hv, hsplit, hp, atoi, decDigits]

/-- Witness for the amended C4 on the S6-style value with a conflicting
attr port. -/
theorem answerSRV_contract_witness :
    vC4.attr.lookup "priority" = some "10" ∧
    vC4.attr.lookup "target" = none ∧
    splitColon vC4.value = ["sip.example.com", "5060"] ∧
    srvPriorityOf (answerSRV "_sip._tcp.example.com." vC4) = some (uint16ofInt 10) ∧
    srvPortOf (answerSRV "_sip._tcp.example.com." vC4) = some (uint16ofInt 5060) ∧
    srvTargetOf (answerSRV "_sip._tcp.example.com." vC4) = some (dotTerminate "sip.example.com") :=
  ⟨rfl, by decide, by decide,
   (answerSRV_contract "_sip._tcp.example.com." vC4).2.1 "10" 10 (by decide) (by decide),
   ((answerSRV_contract "_sip._tcp.example.com." vC4).2.2.2.2.2.1 "sip.example.com" "5060" [] 5060
     (by decide) (by decide) (by decide) (by decide)).1,
   ((answerSRV_contract "_sip._tcp.example.com." vC4).2.2.2.2.2.1 "sip.example.com" "5060" [] 5060
     (by decide) (by decide) (by decide) (by decide)).2⟩

/-! ### Claim C5 -/

/-- Counterexample to C5 as stated: an A value whose string is not a valid
address literal still yields a resource record (with a nil address) in the
answer set instead of being omitted. -/
theorem invalid_literal_not_omitted :
    parseIP vBad.value = none ∧
    answerQuestionF 2 envC5 qC5 0 =
      some ([{ header := { name := "bad.example.com.", rrtype := RType.A, rrclass := classINET,
                           ttl := 300 },
               rdata := RData.a none }], []) :=
  ⟨by decide, by decide⟩

/-- C5 as amended: the A (resp. AAAA) builder never checks the parse result:
for a non-expired value whose string fails `net.ParseIP`, the value loop still
appends one record whose address payload is Go's nil. -/
theorem invalid_literal_record_kept
    (chase : String → Option (List RR × List (String × Nat)))
    (now : Int) (v : DNSValue) (vs : List DNSValue) (st : LoopState)
    (hnx : isExpired now v = false) (hbad : parseIP v.value = none) :
    processValues chase now RType.A (v :: vs) st =
      processValues chase now RType.A vs
        { st with answerTTL := ttlAdjustVal now v st.answerTTL,
                  answers := st.answers ++ [answerA st.name v] } ∧
    (answerA st.name v).rdata = RData.a none ∧
    processValues chase now RType.AAAA (v :: vs) st =
      processValues chase now RType.AAAA vs
        { st with answerTTL := ttlAdjustVal now v st.answerTTL,
                  answers := st.answers ++ [answerAAAA st.name v] } ∧
    (answerAAAA st.name v).rdata = RData.aaaa none := by
  refine ⟨?_, by simp [answerA, hbad], ?_, by simp [answerAAAA, hbad]⟩
  · simp [processValues, hnx, buildStep, ttlAdjust]
  · simp [processValues, hnx, buildStep, ttlAdjust]

/-- Witness for the amended C5 at the concrete invalid literal. -/
theorem invalid_literal_record_kept_witness :
    isExpired 0 vBad = false ∧ parseIP vBad.value = none ∧
    processValues (fun _ => none) 0 RType.A [vBad] (initState "bad.example.com." 300) =
      processValues (fun _ => none) 0 RType.A []
        { initState "bad.example.com." 300 with
          answerTTL := ttlAdjustVal 0 vBad 300,
          answers := [] ++ [answerA "bad.example.com." vBad] } :=
  ⟨rfl, by decide,
   (invalid_literal_record_kept (fun _ => none) 0 vBad [] (initState "bad.example.com." 300)
     rfl (by decide)).1⟩

/-! ### Claim C1 -/

/-- Counterexample to C1 as stated: with default TTL 300 and entry TTL 7200,
the emitted header TTL is 7200 — the entry TTL replaces the default rather
than being taken to a minimum with it, while the claim's formula yields
300. -/
theorem claim_ttl_includes_default_refuted :
    envC1.defaultTTL = 300 ∧ entryC1.ttl = 7200 ∧
    answerQuestionF 4 envC1 qC1 0 =
      some ([{ header := { name := "host.example.com.", rrtype := RType.A, rrclass := classINET,
                           ttl := 7200 },
               rdata := RData.a (parseIP "10.0.0.7") }], []) ∧
    specClaimTTL envC1.defaultTTL entryC1 envC1.now = 300 ∧
    (7200 : Nat) ≠ 300 :=
  ⟨rfl, rfl, by decide, by decide, by decide⟩

/-- C1 as amended: after the value loop, every primary answer's header TTL is
overwritten with the same effective TTL — the minimum of the entry TTL when
positive (otherwise the configured default TTL) and, over each contributing
non-expired stored value, the value TTL when positive and
`uint32(expiration − now)` when expiration is set.  The default TTL does not
participate in the minimum when the entry TTL is positive. -/
theorem answerQuestion_primary_ttl (n : Nat) (env : Env) (q : Question) (d : Nat)
    (entry : DNSEntry) (rrType : RType) (st : LoopState)
    (hq : q.qtype ≠ RType.SOA)
    (hf : fetchBestEntry env.store q = some (entry, rrType))
    (hp : processValues (fun t => answerQuestionF n env { q with name := t } (d + 1))
        env.now rrType entry.values
        (initState q.name (if entry.ttl > 0 then entry.ttl else env.defaultTTL)) = some st) :
    st.answerTTL = effectiveTTL env.defaultTTL entry env.now ∧
    (∀ rr ∈ applyTTL st.answerTTL st.answers,
      rr.header.ttl = effectiveTTL env.defaultTTL entry env.now) ∧
    (∃ tail tr, answerQuestionF (n + 1) env q d =
      some (applyTTL st.answerTTL st.answers ++ st.secondary ++ tail, tr)) := by
  have httl : st.answerTTL = effectiveTTL env.defaultTTL entry env.now := by
    have := processValues_ttl (fun t => answerQuestionF n env { q with name := t } (d + 1))
      env.now rrType entry.values
      (initState q.name (if entry.ttl > 0 then entry.ttl else env.defaultTTL)) st hp
    rw [this]
    rfl
  refine ⟨httl, ?_, ?_⟩
  · intro rr hrr
    rw [← httl]
    exact mem_applyTTL st.answerTTL st.answers rr hrr
  · show ∃ tail tr, answerQuestionF (Nat.succ n) env q d = _
    unfold answerQuestionF
    rw [hf]
    simp only [if_neg hq, hp]
    by_cases hw : st.wantsForwarder ∧ haveAuthority env st.name = false
    · rw [if_pos hw]
      exact ⟨_, _, rfl⟩
    · rw [if_neg hw]
      exact ⟨[], st.fwdTrace, by rw [List.append_nil]⟩

/-- Witness for the amended C1 at the concrete entry of the counterexample
(entry TTL 7200 replaces default 300; the value contributes no candidate). -/
theorem answerQuestion_primary_ttl_witness :
    qC1.qtype ≠ RType.SOA ∧
    fetchBestEntry envC1.store qC1 = some (entryC1, RType.A) ∧
    processValues (fun t => answerQuestionF 3 envC1 { qC1 with name := t } 1)
        envC1.now RType.A entryC1.values
        (initState qC1.name (if entryC1.ttl > 0 then entryC1.ttl else envC1.defaultTTL)) =
      some { initState qC1.name 7200 with answers := [answerA qC1.name vC1] } ∧
    ({ initState qC1.name 7200 with
        answers := [answerA qC1.name vC1] } : LoopState).answerTTL =
      effectiveTTL envC1.defaultTTL entryC1 envC1.now :=
  ⟨by decide, by decide, by decide,
   (answerQuestion_primary_ttl 3 envC1 qC1 0 entryC1 RType.A
     { initState qC1.name 7200 with answers := [answerA qC1.name vC1] }
     (by decide) (by decide) (by decide)).1⟩


/-! ### Claims C6 and C7 -/

def stripSt (st : LoopState) : String × Nat × List RR × List RR × Bool :=
  (st.name, st.answerTTL, st.answers, st.secondary, st.wantsForwarder)

lemma stripSt_fields (st1 st2 : LoopState) (h : stripSt st1 = stripSt st2) :
    st1.name = st2.name ∧ st1.answerTTL = st2.answerTTL ∧ st1.answers = st2.answers ∧
    st1.secondary = st2.secondary ∧ st1.wantsForwarder = st2.wantsForwarder := by
  simpa [stripSt, Prod.ext_iff] using h

lemma stripSt_ttlAdjust (now : Int) (v : DNSValue) (st1 st2 : LoopState)
    (h : stripSt st1 = stripSt st2) :
    stripSt (ttlAdjust now v st1) = stripSt (ttlAdjust now v st2) := by
  obtain ⟨hn, ht, ha, hs, hw⟩ := stripSt_fields st1 st2 h
  simp [stripSt, ttlAdjust, hn, ht, ha, hs, hw]

lemma map_fst_eq_cases {α β : Type} (o1 o2 : Option (α × β))
    (h : o1.map Prod.fst = o2.map Prod.fst) :
    (o1 = none ∧ o2 = none) ∨ ∃ a b1 b2, o1 = some (a, b1) ∧ o2 = some (a, b2) := by
  rcases o1 with _ | ⟨a1, b1⟩ <;> rcases o2 with _ | ⟨a2, b2⟩
  · exact Or.inl ⟨rfl, rfl⟩
  · simp at h
  · simp at h
  · simp at h
    exact Or.inr ⟨a1, b1, b2, rfl, by rw [h]⟩

lemma map_stripSt_eq_cases (o1 o2 : Option LoopState)
    (h : o1.map stripSt = o2.map stripSt) :
    (o1 = none ∧ o2 = none) ∨ ∃ s1 s2, o1 = some s1 ∧ o2 = some s2 ∧ stripSt s1 = stripSt s2 := by
  rcases o1 with _ | s1 <;> rcases o2 with _ | s2
  · exact Or.inl ⟨rfl, rfl⟩
  · simp at h
  · simp at h
  · simp at h
    exact Or.inr ⟨s1, s2, rfl, rfl, h⟩

lemma buildStep_congr (ch1 ch2 : String → Option (List RR × List (String × Nat)))
    (hch : ∀ t, (ch1 t).map Prod.fst = (ch2 t).map Prod.fst)
    (rrType : RType) (v : DNSValue) (st1 st2 : LoopState)
    (hst : stripSt st1 = stripSt st2) :
    (buildStep ch1 rrType v st1).map stripSt = (buildStep ch2 rrType v st2).map stripSt := by
  obtain ⟨hn, ht, ha, hs, hw⟩ := stripSt_fields st1 st2 hst
  cases rrType
  case CNAME =>
    simp only [buildStep]
    rw [hn]
    rcases map_fst_eq_cases _ _ (hch (answerCNAME st2.name v).2) with
      ⟨h1, h2⟩ | ⟨rrs, tr1, tr2, h1, h2⟩ <;>
      simp [h1, h2, stripSt, hn, ht, ha, hs, hw]
  all_goals simp [buildStep, stripSt, hn, ht, ha, hs, hw]

lemma processValues_congr (ch1 ch2 : String → Option (List RR × List (String × Nat)))
    (hch : ∀ t, (ch1 t).map Prod.fst = (ch2 t).map Prod.fst)
    (now : Int) (rrType : RType) :
    ∀ (vals : List DNSValue) (st1 st2 : LoopState), stripSt st1 = stripSt st2 →
      (processValues ch1 now rrType vals st1).map stripSt =
        (processValues ch2 now rrType vals st2).map stripSt := by
  intro vals
  induction vals with
  | nil =>
    intro st1 st2 h
    simp [processValues, h]
  | cons v vs ih =>
    intro st1 st2 h
    by_cases hexp : isExpired now v = true
    · simp only [processValues, hexp, if_true]
      exact ih st1 st2 h
    · simp only [processValues, hexp, Bool.false_eq_true, if_false]
      have hb := buildStep_congr ch1 ch2 hch rrType v (ttlAdjust now v st1) (ttlAdjust now v st2)
        (stripSt_ttlAdjust now v st1 st2 h)
      rcases map_stripSt_eq_cases _ _ hb with ⟨b1, b2⟩ | ⟨s1, s2, b1, b2, hs12⟩ <;>
        simp only [b1, b2]
      exact ih s1 s2 hs12

lemma answerQuestionF_fst_depth (n : Nat) :
    ∀ (env : Env) (q : Question) (d : Nat),
      (answerQuestionF n env q d).map Prod.fst = (answerQuestionF n env q 0).map Prod.fst := by
  induction n with
  | zero => intro env q d; rfl
  | succ n ih =>
    intro env q d
    show (answerQuestionF (Nat.succ n) env q d).map Prod.fst =
      (answerQuestionF (Nat.succ n) env q 0).map Prod.fst
    unfold answerQuestionF
    rcases hf : fetchBestEntry env.store q with _ | ⟨entry, rrType⟩
    · by_cases ha : haveAuthority env q.name
      · simp [ha]
      · simp [ha]
    · by_cases hq : q.qtype = RType.SOA
      · simp [hq]
      · simp only [if_neg hq]
        have hpv := processValues_congr
          (fun t => answerQuestionF n env { q with name := t } (d + 1))
          (fun t => answerQuestionF n env { q with name := t } (0 + 1))
          (fun t => by
            rw [ih env { q with name := t } (d + 1), ih env { q with name := t } (0 + 1)])
          env.now rrType entry.values
          (initState q.name (if entry.ttl > 0 then entry.ttl else env.defaultTTL))
          (initState q.name (if entry.ttl > 0 then entry.ttl else env.defaultTTL)) rfl
        rcases map_stripSt_eq_cases _ _ hpv with ⟨p1, p2⟩ | ⟨s1, s2, p1, p2, hs12⟩ <;>
          simp only [p1, p2]
        obtain ⟨hnm, htt, haa, hsec, hwf⟩ := stripSt_fields s1 s2 hs12
        by_cases hw : s1.wantsForwarder = true ∧ haveAuthority env s1.name = false
        · rw [if_pos hw, if_pos (by rw [← hnm, ← hwf]; exact hw)]
          simp [hnm, htt, haa, hsec]
        · rw [if_neg hw, if_neg (by rw [← hnm, ← hwf]; exact hw)]
          simp [htt, haa, hsec]


/-- C6 as amended: the produced answers are independent of the qDepth
argument (which feeds only logging and the ghost trace), and for every depth
— chases at depth > 0 included — the forwarder fallback runs whenever no
entry was found and the server lacks authority for the name; chases do not
suppress it. -/
theorem chase_depth_irrelevant_forward (n : Nat) (env : Env) (q : Question) (d : Nat) :
    (answerQuestionF n env q d).map Prod.fst = (answerQuestionF n env q 0).map Prod.fst ∧
    (fetchBestEntry env.store q = none → haveAuthority env q.name = false →
      answerQuestionF (n + 1) env q d =
        some ((forwardQuestion (fun net srv => env.exch net srv q.name q.qtype) env.forwarders).1,
          [(q.name, d)])) := by
  constructor
  · exact answerQuestionF_fst_depth n env q d
  · intro hf ha
    show answerQuestionF (Nat.succ n) env q d = _
    unfold answerQuestionF
    simp only [hf, ha, Bool.false_eq_true, if_false]

/-- Counterexample to C6 as stated: chasing the CNAME `a.example.com. →
b.example.com.` (depth 1) with no entry at the target and no authority calls
the forwarder — the trace records the forward at depth 1 and the upstream's
record appears in the answers. -/
theorem forward_invoked_at_depth_one :
    answerQuestionF 3 envC6 qC6 0 =
      some ([{ header := { name := "a.example.com.", rrtype := RType.CNAME, rrclass := classINET,
                           ttl := 300 },
               rdata := RData.cname "b.example.com." }, rrUp],
            [("b.example.com.", 1)]) ∧
    (forwardQuestion (fun net srv => envC6.exch net srv "b.example.com." RType.A)
      envC6.forwarders).1 = [rrUp] :=
  ⟨by decide, by decide⟩

/-- Witness for the amended C6 at depth 1 on an empty store. -/
theorem chase_depth_irrelevant_forward_witness :
    fetchBestEntry envEmpty.store qC5 = none ∧ haveAuthority envEmpty qC5.name = false ∧
    answerQuestionF 2 envEmpty qC5 1 = some ([], [("bad.example.com.", 1)]) :=
  ⟨by decide, by decide, by
    rw [(chase_depth_irrelevant_forward 1 envEmpty qC5 1).2 (by decide) (by decide)]
    decide⟩

/-- One step of a CNAME chase whose recursive resolution exhausts its fuel
exhausts the fuel of the caller as well. -/
lemma aq_single_cname_chase (n d : Nat) (env : Env) (q : Question) (entry : DNSEntry)
    (v : DNSValue)
    (hq : q.qtype ≠ RType.SOA)
    (hf : fetchBestEntry env.store q = some (entry, RType.CNAME))
    (hvals : entry.values = [v])
    (hexp : isExpired env.now v = false)
    (hch : answerQuestionF n env { q with name := (answerCNAME q.name v).2 } (d + 1) = none) :
    answerQuestionF (n + 1) env q d = none := by
  show answerQuestionF (Nat.succ n) env q d = none
  unfold answerQuestionF
  simp only [hf]
  rw [if_neg hq, hvals]
  simp [processValues, hexp, buildStep, ttlAdjust, initState, hch]

/-- On the two-cycle store, no amount of fuel completes the resolution of
either name, at any depth. -/
lemma cycle_no_fuel :
    ∀ n d : Nat, answerQuestionF n envC7 qC7a d = none ∧ answerQuestionF n envC7 qC7b d = none := by
  intro n
  induction n with
  | zero => intro d; exact ⟨rfl, rfl⟩
  | succ n ih =>
    intro d
    constructor
    · refine aq_single_cname_chase n d envC7 qC7a
        { ttl := 0, values := [{ expiration := none, ttl := 0, value := "b.example.com", attr := [] }], meta := [] }
        { expiration := none, ttl := 0, value := "b.example.com", attr := [] }
        (by decide) (by decide) rfl rfl ?_
      have harg : ({ qC7a with
          name := (answerCNAME qC7a.name
            { expiration := none, ttl := 0, value := "b.example.com", attr := [] }).2 } : Question)
          = qC7b := by decide
      rw [harg]
      exact (ih (d + 1)).2
    · refine aq_single_cname_chase n d envC7 qC7b
        { ttl := 0, values := [{ expiration := none, ttl := 0, value := "a.example.com", attr := [] }], meta := [] }
        { expiration := none, ttl := 0, value := "a.example.com", attr := [] }
        (by decide) (by decide) rfl rfl ?_
      have harg : ({ qC7b with
          name := (answerCNAME qC7b.name
            { expiration := none, ttl := 0, value := "a.example.com", attr := [] }).2 } : Question)
          = qC7a := by decide
      rw [harg]
      exact (ih (d + 1)).1

/-- C7 as amended: each CNAME chase increments the depth counter, but no
bound on it is ever checked; on a store whose CNAME records form a cycle the
resolution never completes — the fuel-indexed model returns no result for
every fuel and every starting depth. -/
theorem cname_cycle_never_resolves (n d : Nat) :
    answerQuestionF n envC7 qC7a d = none ∧ answerQuestionF n envC7 qC7b d = none :=
  cycle_no_fuel n d

/-- Counterexample to C7 as stated: resolution of `a.example.com. A` against
the cyclic store does not terminate (no fuel bound suffices). -/
theorem cname_cycle_nontermination : ¬ resolvesSome envC7 qC7a := by
  rintro ⟨n, hn⟩
  rw [(cycle_no_fuel n 0).1] at hn
  simp at hn

end Netcore
